import Mathlib

/-!
Shallow embedding of the mcp25xx CAN controller driver crate
(idheader.rs, frame.rs, registers.rs, config.rs, lib.rs).

Machine integers (`u8`, `u16`, `u32`) are modelled as `Nat`; a cast
`as u8` is modelled as `% 256` where the source performs a truncating
cast.  The embedding follows the crate compiled with default features
(MCP2510: no `mcp2515` / `mcp25625` feature), which selects the
fallback load/read-buffer paths in lib.rs.
-/

namespace Mcp25xx

/-- `embedded_can::Id`: a standard (11-bit) or extended (29-bit) CAN
identifier.  The width invariants are enforced by the `StandardId` /
`ExtendedId` constructors in the `embedded_can` crate; theorems state
them as explicit bounds. -/
inductive Id where
  | standard (n : Nat)
  | extended (n : Nat)
deriving DecidableEq, Repr

/-- `IdHeader` from idheader.rs: the chip's 4-byte identifier field
(registers SIDH, SIDL, EID8, EID0).  Each field is a `u8`. -/
structure IdHeader where
  sidh : Nat
  sidl : Nat
  eid8 : Nat
  eid0 : Nat
deriving DecidableEq, Repr

namespace IdHeader

/-- `impl From<StandardId> for IdHeader` (idheader.rs lines 60-71). -/
def ofStandard (n : Nat) : IdHeader :=
  { sidh := (n >>> 3) % 256        -- (id >> 3) as u8
    sidl := ((n % 256) &&& 0b00000111) <<< 5  -- (id as u8 & 0b00000111) << 5
    eid8 := 0
    eid0 := 0 }

/-- `impl From<ExtendedId> for IdHeader` (idheader.rs lines 72-86). -/
def ofExtended (n : Nat) : IdHeader :=
  { sidh := (n >>> 21) % 256                     -- (id >> 21) as u8
    sidl := ((n >>> 13) &&& 0b11100000) % 256    -- ((id >> 13) & 0b11100000) as u8
            ||| 0b00001000
            ||| ((n >>> 16) &&& 0b00000011) % 256  -- ((id >> 16) & 0b00000011) as u8
    eid8 := (n >>> 8) % 256                      -- (id >> 8) as u8
    eid0 := n % 256 }                            -- id as u8

/-- `impl From<Id> for IdHeader` (idheader.rs lines 52-59). -/
def ofId : Id → IdHeader
  | .standard n => ofStandard n
  | .extended n => ofExtended n

/-- `IdHeader::exide` (idheader.rs lines 42-45): `self.sidl & 0b00001000 > 0`. -/
def exide (h : IdHeader) : Bool :=
  decide (0 < h.sidl &&& 0b00001000)

/-- `IdHeader::id` (idheader.rs lines 24-40): decode the 4-byte field
back into an `Id`, discriminating on the extension flag bit. -/
def id (h : IdHeader) : Id :=
  if h.exide then
    Id.extended ((h.sidh <<< 21)
      ||| ((h.sidl &&& 0xE0) <<< 13)
      ||| ((h.sidl &&& 0b11) <<< 16)
      ||| (h.eid8 <<< 8)
      ||| h.eid0)
  else
    Id.standard ((h.sidh <<< 3) ||| (h.sidl >>> 5))

/-- `IdHeader::into_bytes` (idheader.rs lines 47-49).  The source reads
`[self.sidh, self.sidl, self.eid8, self.sidh]` — the fourth byte is
`sidh`, not `eid0`; this is embedded verbatim. -/
def into_bytes (h : IdHeader) : List Nat :=
  [h.sidh, h.sidl, h.eid8, h.sidh]

end IdHeader

/-! ## DLC register (registers.rs lines 297-310)

`modular_bitfield` layout: `dlc: B4` at bits 0-3, skip at bits 4-5,
`rtr: bool` at bit 6, skip at bit 7.  The stored byte is modelled as a
`Nat`; getters extract the field, setters replace it and keep the other
bits. -/

namespace DLC

/-- Getter for the `dlc: B4` field (bits 0-3). -/
def get_dlc (b : Nat) : Nat := b % 16

/-- Setter for the `dlc: B4` field: replace bits 0-3, keep the rest. -/
def with_dlc (b v : Nat) : Nat := b / 16 * 16 + v % 16

/-- Getter for the `rtr: bool` field (bit 6). -/
def get_rtr (b : Nat) : Bool := decide (b / 64 % 2 = 1)

/-- Setter for the `rtr: bool` field: replace bit 6, keep the rest. -/
def with_rtr (b : Nat) (r : Bool) : Nat :=
  b % 64 + (if r then 64 else 0) + b / 128 * 128

end DLC

/-- A fixed block of 13 bytes: the chip's receive/transmit buffer layout
(4 identifier bytes, 1 DLC byte, 8 data bytes), i.e. the `[u8; 13]` of
`Frame::as_bytes` / `Frame::from_bytes`. -/
structure Bytes13 where
  b0 : Nat
  b1 : Nat
  b2 : Nat
  b3 : Nat
  b4 : Nat
  b5 : Nat
  b6 : Nat
  b7 : Nat
  b8 : Nat
  b9 : Nat
  b10 : Nat
  b11 : Nat
  b12 : Nat
deriving DecidableEq, Repr

/-- Build a `Bytes13` from a byte list (missing bytes read as 0). -/
def toBytes13 (l : List Nat) : Bytes13 :=
  ⟨l.getD 0 0, l.getD 1 0, l.getD 2 0, l.getD 3 0, l.getD 4 0, l.getD 5 0,
   l.getD 6 0, l.getD 7 0, l.getD 8 0, l.getD 9 0, l.getD 10 0, l.getD 11 0,
   l.getD 12 0⟩

/-- `Frame` from frame.rs (exported as `CanFrame`): `#[repr(C)]` struct of
the private frame-header bytes (`IdHeader` in frame.rs, fields `sidh`,
`sidl`, `eid8`, `eid0`), the `DLC` register byte, and the 8 data bytes. -/
structure CanFrame where
  sidh : Nat
  sidl : Nat
  eid8 : Nat
  eid0 : Nat
  dlcReg : Nat
  d0 : Nat
  d1 : Nat
  d2 : Nat
  d3 : Nat
  d4 : Nat
  d5 : Nat
  d6 : Nat
  d7 : Nat
deriving DecidableEq, Repr

namespace CanFrame

/-- `Frame::as_bytes` (frame.rs lines 73-77): reinterpret the `#[repr(C)]`
struct as its 13 bytes. -/
def as_bytes (f : CanFrame) : Bytes13 :=
  ⟨f.sidh, f.sidl, f.eid8, f.eid0, f.dlcReg,
   f.d0, f.d1, f.d2, f.d3, f.d4, f.d5, f.d6, f.d7⟩

/-- The same 13 bytes as a list, for taking the `[0..5 + dlc]` slice in
`load_tx_buffer`. -/
def as_bytesList (f : CanFrame) : List Nat :=
  [f.sidh, f.sidl, f.eid8, f.eid0, f.dlcReg,
   f.d0, f.d1, f.d2, f.d3, f.d4, f.d5, f.d6, f.d7]

/-- `Frame::from_bytes` (frame.rs lines 79-88): transmute the 13 bytes
into a frame, then clamp an out-of-range DLC nibble to 8.  Decoding is
total: the function never fails. -/
def from_bytes (b : Bytes13) : CanFrame :=
  let f : CanFrame := ⟨b.b0, b.b1, b.b2, b.b3, b.b4, b.b5, b.b6, b.b7,
                       b.b8, b.b9, b.b10, b.b11, b.b12⟩
  if 8 < DLC.get_dlc f.dlcReg then
    { f with dlcReg := DLC.with_dlc f.dlcReg 8 }
  else f

/-- `IdHeader::exide` from frame.rs (lines 41-44): `self.sidl & 0b00001000 > 0`,
exposed as `Frame::is_extended`. -/
def exide (f : CanFrame) : Bool :=
  decide (0 < f.sidl &&& 0b00001000)

/-- `IdHeader::id` from frame.rs (lines 46-55), called by `Frame::id`.
The extended branch of the source is `todo!()`, i.e. a panic; the panic
is modelled as `Option.none`.  The standard branch decodes
`(sidh << 3) + (sidl >> 5)`. -/
def id (f : CanFrame) : Option Id :=
  if 0 < f.sidl &&& 0b00001000 then
    none
  else
    some (Id.standard ((f.sidh <<< 3) + (f.sidl >>> 5)))

/-- `Frame::new` (frame.rs lines 92-106).  `IdHeader::new` in frame.rs
(lines 15-39) is byte-for-byte the packing of the `From` impls in
idheader.rs, so the embedding reuses `IdHeader.ofId` for the four header
bytes.  Data is copied into a zeroed 8-byte buffer. -/
def new (i : Id) (data : List Nat) : Except Unit CanFrame :=
  if 8 < data.length then
    .error ()
  else
    let h := IdHeader.ofId i
    .ok { sidh := h.sidh, sidl := h.sidl, eid8 := h.eid8, eid0 := h.eid0,
          dlcReg := DLC.with_dlc 0 data.length,
          d0 := data.getD 0 0, d1 := data.getD 1 0, d2 := data.getD 2 0,
          d3 := data.getD 3 0, d4 := data.getD 4 0, d5 := data.getD 5 0,
          d6 := data.getD 6 0, d7 := data.getD 7 0 }

/-- `Frame::new_remote` (frame.rs lines 108-117). -/
def new_remote (i : Id) (dlc : Nat) : Except Unit CanFrame :=
  if 8 < dlc then
    .error ()
  else
    let h := IdHeader.ofId i
    .ok { sidh := h.sidh, sidl := h.sidl, eid8 := h.eid8, eid0 := h.eid0,
          dlcReg := DLC.with_rtr (DLC.with_dlc 0 dlc) true,
          d0 := 0, d1 := 0, d2 := 0, d3 := 0, d4 := 0, d5 := 0, d6 := 0,
          d7 := 0 }

/-- `Frame::dlc` (frame.rs lines 133-136). -/
def dlcVal (f : CanFrame) : Nat := DLC.get_dlc f.dlcReg

/-- `Frame::is_remote_frame` (frame.rs lines 124-127). -/
def is_remote_frame (f : CanFrame) : Bool := DLC.get_rtr f.dlcReg

/-- `Frame::data` (frame.rs lines 138-141): `&self.data[0..self.dlc()]`. -/
def data (f : CanFrame) : List Nat :=
  [f.d0, f.d1, f.d2, f.d3, f.d4, f.d5, f.d6, f.d7].take f.dlcVal

end CanFrame

/-! ## SPI command protocol and driver operations (lib.rs)

Every driver operation performs a sequence of SPI transactions; each
transaction is a list of write/read segments bracketed by one
chip-select scope (`SpiDevice::transaction` / `SpiDevice::write`).  The
bus is modelled by an environment telling, per transaction index of a
run, whether it fails (an opaque `SPI::Error`) and which bytes its read
segments return.  A driver operation is a function from the environment
and the index of the next transaction to a result, the next index, and
the list of transactions successfully issued, in order. -/

/-- One segment of an SPI transaction: an outbound byte sequence or an
inbound read of a given length. -/
inductive Seg where
  | wr (bytes : List Nat)
  | rd (len : Nat)
deriving DecidableEq, Repr

/-- One SPI transaction: its segments, bracketed by a single
chip-select assert/deassert pair. -/
abbrev Txn := List Seg

/-- Errors of the `embedded_can::nb::Can` impl: a propagated bus fault
(`SpiError`) or the retryable `nb::Error::WouldBlock`. -/
inductive DriverErr where
  | bus
  | wouldBlock
deriving DecidableEq, Repr

/-- The bus environment of one run: `fails k` tells whether the k-th
SPI transaction errors, `resp k` gives the bytes its read segments
return. -/
structure SpiEnv where
  fails : Nat → Bool
  resp : Nat → List Nat

/-- Driver computation: environment → next transaction index →
(result, next index, log of successfully issued transactions). -/
def M (α : Type) : Type :=
  SpiEnv → Nat → Except DriverErr α × Nat × List Txn

namespace M

def pure (a : α) : M α := fun _ n => (.ok a, n, [])

def bind (x : M α) (f : α → M β) : M β := fun env n =>
  match x env n with
  | (.ok a, n1, l1) =>
    match f a env n1 with
    | (r, n2, l2) => (r, n2, l1 ++ l2)
  | (.error e, n1, l1) => (.error e, n1, l1)

instance : Monad M where
  pure := M.pure
  bind := M.bind

/-- Raise an error without touching the bus. -/
def fail (e : DriverErr) : M α := fun _ n => (.error e, n, [])

/-- Perform one SPI transaction; returns the bytes read by its read
segments.  A failing transaction propagates the opaque bus error. -/
def txn (t : Txn) : M (List Nat) := fun env n =>
  if env.fails n then (.error .bus, n, []) else (.ok (env.resp n), n + 1, [t])

end M

/-! `Instruction` opcodes (lib.rs lines 404-446), default feature set. -/

namespace Instruction

def reset : Nat := 0b11000000
def rd : Nat := 0b00000011
def write : Nat := 0b00000010
def rts : Nat := 0b10000000
def readStatus : Nat := 0b10100000
def bitModify : Nat := 0b00000101

end Instruction

/-! `ReadStatusResponse` bit positions (registers.rs lines 506-527):
rx0if bit 0, rx1if bit 1, txreq0 bit 2, tx0if bit 3, txreq1 bit 4,
tx1if bit 5, txreq2 bit 6, tx2if bit 7. -/

namespace ReadStatusResponse

def rx0if (s : Nat) : Bool := decide (s % 2 = 1)
def rx1if (s : Nat) : Bool := decide (s / 2 % 2 = 1)
def txreq0 (s : Nat) : Bool := decide (s / 4 % 2 = 1)
def txreq1 (s : Nat) : Bool := decide (s / 16 % 2 = 1)
def txreq2 (s : Nat) : Bool := decide (s / 64 % 2 = 1)

end ReadStatusResponse

/-! Register addresses used by the driver (registers.rs lines 563-613). -/

namespace RegAddr

def CNF3 : Nat := 0x28
def RXB0CTRL : Nat := 0x60
def RXB1CTRL : Nat := 0x70
def CANCTRL : Nat := 0x0F
def CANINTF : Nat := 0x2C

end RegAddr

namespace MCP25xx

/-- `MCP25xx::reset` (lib.rs lines 172-174): `spi.write(&[RESET])`. -/
def reset : M Unit := do
  let _ ← M.txn [.wr [Instruction.reset]]
  Pure.pure ()

/-- `MCP25xx::write_registers` (lib.rs lines 294-299):
one transaction `[WRITE, start_address]` then the data bytes. -/
def write_registers (addr : Nat) (data : List Nat) : M Unit := do
  let _ ← M.txn [.wr [Instruction.write, addr], .wr data]
  Pure.pure ()

/-- `MCP25xx::write_register` (lib.rs lines 268-271):
`spi.write(&[WRITE, ADDRESS, value])`. -/
def write_register (addr val : Nat) : M Unit := do
  let _ ← M.txn [.wr [Instruction.write, addr, val]]
  Pure.pure ()

/-- `MCP25xx::modify_register` (lib.rs lines 276-283):
`spi.write(&[BITMODIFY, ADDRESS, mask, value])`. -/
def modify_register (addr mask val : Nat) : M Unit := do
  let _ ← M.txn [.wr [Instruction.bitModify, addr, mask, val]]
  Pure.pure ()

/-- `MCP25xx::read_status` (lib.rs lines 162-169): write `[READSTATUS]`,
read 1 byte. -/
def read_status : M Nat := do
  let b ← M.txn [.wr [Instruction.readStatus], .rd 1]
  Pure.pure (b.headD 0)

/-- `MCP25xx::set_bitrate` (lib.rs lines 130-132): write the three CNF
bytes (`CNF::into_bytes` = `[cnf3, cnf2, cnf1]`, registers.rs lines
220-227) starting at `CNF3::ADDRESS`. -/
def set_bitrate (cnf3 cnf2 cnf1 : Nat) : M Unit :=
  write_registers RegAddr.CNF3 [cnf3, cnf2, cnf1]

/-- `MCP25xx::set_filter` (lib.rs lines 157-159): write
`IdHeader::into_bytes` starting at the filter's address. -/
def set_filter (filter : Nat) (idh : IdHeader) : M Unit :=
  write_registers filter idh.into_bytes

/-- `MCP25xx::request_to_send` (lib.rs lines 302-305):
`spi.write(&[RTS | (1 << buf_idx)])`. -/
def request_to_send (bufIdx : Nat) : M Unit := do
  let _ ← M.txn [.wr [Instruction.rts ||| (1 <<< bufIdx)]]
  Pure.pure ()

/-- `MCP25xx::load_tx_buffer`, fallback path without the mcp2515/mcp25625
features (lib.rs lines 323-332): write the first `5 + dlc` frame bytes
starting at `0x31 + 0x10 * buf_idx`. -/
def load_tx_buffer (bufIdx : Nat) (frame : CanFrame) : M Unit :=
  write_registers (0x31 + 0x10 * bufIdx)
    (frame.as_bytesList.take (5 + frame.dlcVal))

/-- `MCP25xx::read_rx`, fallback path (lib.rs lines 354-360): write
`[READ, 0x61 + 0x10 * buf_idx]`, read 13 bytes. -/
def read_rx (bufIdx : Nat) : M (List Nat) :=
  M.txn [.wr [Instruction.rd, 0x61 + 0x10 * bufIdx], .rd 13]

/-- `MCP25xx::read_rx_buffer` (lib.rs lines 335-344): read the 13 buffer
bytes, decode them, then (fallback path) clear the pending-flag bit with
`modify_register(CANINTF::new(), 1 << buf_idx)` — mask `1 << buf_idx`,
value `CANINTF::new()` = 0. -/
def read_rx_buffer (bufIdx : Nat) : M CanFrame := do
  let bytes ← read_rx bufIdx
  let frame := CanFrame.from_bytes (toBytes13 bytes)
  modify_register RegAddr.CANINTF (1 <<< bufIdx) 0
  Pure.pure frame

/-- The transmit-buffer selection of `Can::transmit` (lib.rs lines
206-217): `buf_idx` starts at 0 and is bumped to 1, then 2, under the
nested `if status.txreqN()` tests; if all three pending flags are set
the nested ifs reach `return Err(nb::Error::WouldBlock)`, here `none`. -/
def selectTxBuffer (status : Nat) : Option Nat :=
  if !ReadStatusResponse.txreq0 status then some 0
  else if !ReadStatusResponse.txreq1 status then some 1
  else if !ReadStatusResponse.txreq2 status then some 2
  else none

/-- `embedded_can::nb::Can::transmit` (lib.rs lines 202-222). -/
def transmit (frame : CanFrame) : M (Option CanFrame) := do
  let status ← read_status
  match selectTxBuffer status with
  | none => M.fail .wouldBlock
  | some bufIdx => do
    load_tx_buffer bufIdx frame
    request_to_send bufIdx
    Pure.pure none

/-- `embedded_can::nb::Can::receive` (lib.rs lines 224-234). -/
def receive : M CanFrame := do
  let status ← read_status
  if ReadStatusResponse.rx0if status then read_rx_buffer 0
  else if ReadStatusResponse.rx1if status then read_rx_buffer 1
  else M.fail .wouldBlock

end MCP25xx

/-- `Config` (config.rs lines 4-11): control register, CNF triple (as
raw bytes, in `CNF::into_bytes` order `[cnf3, cnf2, cnf1]`), both
receive-buffer control registers, and the ordered filter list
(`AcceptanceFilter` address, identifier header). -/
structure Config where
  canctrl : Nat
  cnf3 : Nat
  cnf2 : Nat
  cnf1 : Nat
  rxb0ctrl : Nat
  rxb1ctrl : Nat
  filters : List (Nat × IdHeader)

namespace MCP25xx

/-- The `for &(filter, id_header) in config.filters` loop of
`apply_config` (lib.rs lines 112-114). -/
def set_filters : List (Nat × IdHeader) → M Unit
  | [] => Pure.pure ()
  | (f, idh) :: rest => do
    set_filter f idh
    set_filters rest

/-- `MCP25xx::apply_config` (lib.rs lines 107-116). -/
def apply_config (c : Config) : M Unit := do
  reset
  set_bitrate c.cnf3 c.cnf2 c.cnf1
  write_register RegAddr.RXB0CTRL c.rxb0ctrl
  write_register RegAddr.RXB1CTRL c.rxb1ctrl
  set_filters c.filters
  write_register RegAddr.CANCTRL c.canctrl

end MCP25xx

/-! ## Expected transaction sequences, for the arbitration and
configuration theorems. -/

/-- The single transaction of `read_status`. -/
def statusTxn : Txn := [.wr [Instruction.readStatus], .rd 1]

/-- The single transaction of `load_tx_buffer` (fallback path). -/
def loadTxTxn (bufIdx : Nat) (frame : CanFrame) : Txn :=
  [.wr [Instruction.write, 0x31 + 0x10 * bufIdx],
   .wr (frame.as_bytesList.take (5 + frame.dlcVal))]

/-- The single transaction of `request_to_send`. -/
def rtsTxn (bufIdx : Nat) : Txn :=
  [.wr [Instruction.rts ||| (1 <<< bufIdx)]]

/-- The buffer-read transaction of `read_rx_buffer` (fallback path). -/
def readRxTxn (bufIdx : Nat) : Txn :=
  [.wr [Instruction.rd, 0x61 + 0x10 * bufIdx], .rd 13]

/-- The pending-flag-clearing bit-modify transaction of
`read_rx_buffer` (fallback path). -/
def clearRxFlagTxn (bufIdx : Nat) : Txn :=
  [.wr [Instruction.bitModify, RegAddr.CANINTF, 1 <<< bufIdx, 0]]

/-- The transaction a `(filter, id_header)` pair contributes to
`apply_config`. -/
def filterTxn (fi : Nat × IdHeader) : Txn :=
  [.wr [Instruction.write, fi.1], .wr fi.2.into_bytes]

/-- The full expected transaction sequence of `apply_config`: reset,
CNF write, both receive-buffer control writes, one filter write per
pair in list order, control-register write. -/
def applyConfigTxns (c : Config) : List Txn :=
  [[.wr [Instruction.reset]],
   [.wr [Instruction.write, RegAddr.CNF3], .wr [c.cnf3, c.cnf2, c.cnf1]],
   [.wr [Instruction.write, RegAddr.RXB0CTRL, c.rxb0ctrl]],
   [.wr [Instruction.write, RegAddr.RXB1CTRL, c.rxb1ctrl]]]
  ++ c.filters.map filterTxn
  ++ [[.wr [Instruction.write, RegAddr.CANCTRL, c.canctrl]]]

/-- A straight-line sequence of transactions, used to factor the
configuration-sequence proofs. -/
def txnSeq : List Txn → M Unit
  | [] => Pure.pure ()
  | t :: ts => do
    let _ ← M.txn t
    txnSeq ts

/-! ## Register codec (registers.rs)

Every register of registers.rs is a `modular_bitfield` over one byte: a
list of named fields of fixed bit widths (skipped/reserved bits are
fields too, carried through), least-significant field first, widths
summing to 8.  `#[repr(u8)]` gives `From<u8>` (decode) and `Into<u8>`
(encode).  Every field of every register admits all values of its bit
width (the `Specifier` enums — `RXM`, `OperationMode`, `CLKPRE`,
`InterruptFlagCode` — enumerate all bit patterns of their width), so a
register value is a list of field values below the width bounds.

The codec of a register with field widths `ws` is the mixed-radix
decomposition: `fieldsOf ws b` decodes byte `b` into the field values,
`byteOf ws vs` re-encodes them (each setter masks its value to the
field width). -/

/-- Decode a byte into field values, least-significant field first. -/
def fieldsOf : List Nat → Nat → List Nat
  | [], _ => []
  | w :: ws, b => b % 2 ^ w :: fieldsOf ws (b / 2 ^ w)

/-- Encode field values back into a byte. -/
def byteOf : List Nat → List Nat → Nat
  | w :: ws, v :: vs => v % 2 ^ w + 2 ^ w * byteOf ws vs
  | _, _ => 0

/-- A register value is valid when it has one value per field, each
below its width bound. -/
def FieldsValid : List Nat → List Nat → Prop
  | [], [] => True
  | w :: ws, v :: vs => v < 2 ^ w ∧ FieldsValid ws vs
  | _, _ => False

/-! Field widths of the registers (default feature set), in
registers.rs declaration order, least-significant field first. -/

namespace Widths

/-- `RXB0CTRL` (lines 14-37): filhit, bukt1, bukt, rxrtr, skip, rxm, skip. -/
def RXB0CTRL : List Nat := [1, 1, 1, 1, 1, 2, 1]

/-- `RXB1CTRL` (lines 39-56): filhit, rxrtr, skip, rxm, skip. -/
def RXB1CTRL : List Nat := [3, 1, 1, 2, 1]

/-- `CANCTRL` without the mcp2515/mcp25625 features (lines 105-121):
clkpre, clken, skip, abat, reqop. -/
def CANCTRL : List Nat := [2, 1, 1, 1, 3]

/-- `CANSTAT` (lines 162-177): skip, icod, skip, opmod. -/
def CANSTAT : List Nat := [1, 3, 1, 3]

/-- `CNF1` (lines 229-240): brp, sjw. -/
def CNF1 : List Nat := [6, 2]

/-- `CNF2` (lines 242-257): prseg, phseg1, sam, btlmode. -/
def CNF2 : List Nat := [3, 3, 1, 1]

/-- `CNF3` without the features (lines 279-295): phseg2, skip, wakfil, skip. -/
def CNF3 : List Nat := [3, 3, 1, 1]

/-- `DLC` (lines 297-310): dlc, skip, rtr, skip. -/
def DLC : List Nat := [4, 2, 1, 1]

/-- `TXB0CTRL` (lines 312-331): txp, skip, txreq, txerr, mloa, abtf, skip. -/
def TXB0CTRL : List Nat := [2, 1, 1, 1, 1, 1, 1]

/-- `TXB1CTRL` (lines 333-352): same layout as `TXB0CTRL`. -/
def TXB1CTRL : List Nat := [2, 1, 1, 1, 1, 1, 1]

/-- `TXB2CTRL` (lines 354-373): same layout as `TXB0CTRL`. -/
def TXB2CTRL : List Nat := [2, 1, 1, 1, 1, 1, 1]

/-- `CANINTE` (lines 375-396): eight single-bit enable flags. -/
def CANINTE : List Nat := [1, 1, 1, 1, 1, 1, 1, 1]

/-- `CANINTF` (lines 398-419): eight single-bit interrupt flags. -/
def CANINTF : List Nat := [1, 1, 1, 1, 1, 1, 1, 1]

/-- `EFLG` (lines 421-442): eight single-bit error flags. -/
def EFLG : List Nat := [1, 1, 1, 1, 1, 1, 1, 1]

/-- `BFPCTRL` (lines 444-457): six single-bit fields, skip. -/
def BFPCTRL : List Nat := [1, 1, 1, 1, 1, 1, 2]

/-- `TXRTSCTRL` (lines 459-474): six single-bit fields, skip. -/
def TXRTSCTRL : List Nat := [1, 1, 1, 1, 1, 1, 2]

/-- `TEC` (lines 476-489): a plain byte newtype. -/
def TEC : List Nat := [8]

/-- `REC` (lines 491-504): a plain byte newtype. -/
def REC : List Nat := [8]

/-- `ReadStatusResponse` (lines 506-527): eight single-bit flags. -/
def ReadStatusResponse : List Nat := [1, 1, 1, 1, 1, 1, 1, 1]

end Widths

/-- All register types of the register codec (default feature set),
each given by its field-width layout. -/
def registerLayouts : List (List Nat) :=
  [Widths.RXB0CTRL, Widths.RXB1CTRL, Widths.CANCTRL, Widths.CANSTAT,
   Widths.CNF1, Widths.CNF2, Widths.CNF3, Widths.DLC,
   Widths.TXB0CTRL, Widths.TXB1CTRL, Widths.TXB2CTRL,
   Widths.CANINTE, Widths.CANINTF, Widths.EFLG,
   Widths.BFPCTRL, Widths.TXRTSCTRL, Widths.TEC, Widths.REC,
   Widths.ReadStatusResponse]

/-! # Theorems

First the shared helper lemmas, then one theorem per specification
claim (with its witness or counterexample where required). -/

/-- Bits of the literal mask 3. -/
theorem tb3 (j : Nat) : Nat.testBit 3 j = decide (j < 2) := by
  rw [show (3 : Nat) = 2 ^ 2 - 1 from rfl, Nat.testBit_two_pow_sub_one]

/-- Bits of the literal mask 8 (the extension flag bit). -/
theorem tb8 (j : Nat) : Nat.testBit 8 j = decide (j = 3) := by
  rw [show (8 : Nat) = 2 ^ 3 from rfl, Nat.testBit_two_pow]
  simp [eq_comm]

/-- Bits of the literal mask 0xE0 = 224. -/
theorem tb224 (j : Nat) : Nat.testBit 224 j = (decide (5 ≤ j) && decide (j < 8)) := by
  rcases Nat.lt_or_ge j 8 with hj | hj
  · interval_cases j <;> decide
  · rw [Nat.testBit_lt_two_pow
      (Nat.lt_of_lt_of_le (by norm_num : (224 : Nat) < 2 ^ 8)
        (Nat.pow_le_pow_right (by norm_num) hj))]
    simp
    omega

/-- Packing a standard identifier leaves the extension flag bit clear. -/
theorem ofStandard_exide (n : Nat) : (IdHeader.ofStandard n).exide = false := by
  simp only [IdHeader.ofStandard, IdHeader.exide, decide_eq_false_iff_not]
  intro hpos
  have h0 : (((n % 256) &&& 7) <<< 5 &&& 8) = 0 := by
    apply Nat.eq_of_testBit_eq
    intro i
    simp only [Nat.testBit_and, Nat.testBit_shiftLeft, Nat.zero_testBit, Bool.and_eq_false_iff]
    by_cases h3 : i = 3
    · subst h3
      simp
    · right
      rw [tb8]
      simp [h3]
  omega

/-- Round trip of the standard-identifier packing. -/
theorem ofStandard_roundtrip (n : Nat) (h : n < 2048) :
    (IdHeader.ofStandard n).id = Id.standard n := by
  rw [IdHeader.id, if_neg (by simp [ofStandard_exide n])]
  congr 1
  simp only [IdHeader.ofStandard]
  apply Nat.eq_of_testBit_eq
  intro i
  rcases Nat.lt_or_ge i 11 with hi | hi
  · simp only [show (256 : Nat) = 2 ^ 8 from by norm_num,
      show (7 : Nat) = 2 ^ 3 - 1 from by norm_num,
      Nat.testBit_or, Nat.testBit_and, Nat.testBit_shiftLeft, Nat.testBit_shiftRight,
      Nat.testBit_mod_two_pow, Nat.testBit_two_pow_sub_one]
    interval_cases i <;> simp
  · have hL : (((n >>> 3) % 256) <<< 3) ||| ((((n % 256) &&& 7) <<< 5) >>> 5) < 2 ^ 11 := by
      apply Nat.or_lt_two_pow
      · rw [Nat.shiftLeft_eq]
        omega
      · rw [Nat.shiftLeft_shiftRight]
        have h7 : n % 256 &&& 7 ≤ 7 := by
          rw [show (7 : Nat) = 2 ^ 3 - 1 from rfl, Nat.and_pow_two_sub_one_eq_mod]
          omega
        omega
    rw [Nat.testBit_lt_two_pow (Nat.lt_of_lt_of_le hL (Nat.pow_le_pow_right (by norm_num) hi)),
        Nat.testBit_lt_two_pow
          (Nat.lt_of_lt_of_le (show n < 2 ^ 11 from h) (Nat.pow_le_pow_right (by norm_num) hi))]

/-- Packing an extended identifier sets the extension flag bit. -/
theorem ofExtended_exide (n : Nat) : (IdHeader.ofExtended n).exide = true := by
  simp only [IdHeader.ofExtended, IdHeader.exide, decide_eq_true_eq]
  set s := ((n >>> 13) &&& 0b11100000) % 256 ||| 0b00001000
    ||| ((n >>> 16) &&& 0b00000011) % 256 with hs
  have h3 : (s &&& 8).testBit 3 = true := by
    rw [hs]
    simp [Nat.testBit_or, Nat.testBit_and, tb8]
  exact Nat.pos_of_ne_zero (fun h0 => by simp [h0] at h3)

/-- Round trip of the extended-identifier packing. -/
theorem ofExtended_roundtrip (n : Nat) (h : n < 2 ^ 29) :
    (IdHeader.ofExtended n).id = Id.extended n := by
  rw [IdHeader.id, if_pos (by simp [ofExtended_exide n])]
  congr 1
  simp only [IdHeader.ofExtended]
  apply Nat.eq_of_testBit_eq
  intro i
  rcases Nat.lt_or_ge i 29 with hi | hi
  · simp only [show (256 : Nat) = 2 ^ 8 from by norm_num,
      Nat.testBit_or, Nat.testBit_and, Nat.testBit_shiftLeft, Nat.testBit_shiftRight,
      Nat.testBit_mod_two_pow, tb3, tb8, tb224]
    interval_cases i <;> simp
  · have hL : (((n >>> 21) % 256) <<< 21)
        ||| (((((n >>> 13) &&& 0b11100000) % 256 ||| 0b00001000
              ||| ((n >>> 16) &&& 0b00000011) % 256) &&& 0xE0) <<< 13)
        ||| (((((n >>> 13) &&& 0b11100000) % 256 ||| 0b00001000
              ||| ((n >>> 16) &&& 0b00000011) % 256) &&& 0b11) <<< 16)
        ||| (((n >>> 8) % 256) <<< 8)
        ||| (n % 256) < 2 ^ 29 := by
      have h224 := Nat.and_le_right
        (n := ((n >>> 13) &&& 0b11100000) % 256 ||| 0b00001000
          ||| ((n >>> 16) &&& 0b00000011) % 256) (m := 0xE0)
      have h3m := Nat.and_le_right
        (n := ((n >>> 13) &&& 0b11100000) % 256 ||| 0b00001000
          ||| ((n >>> 16) &&& 0b00000011) % 256) (m := 0b11)
      apply Nat.or_lt_two_pow
      apply Nat.or_lt_two_pow
      apply Nat.or_lt_two_pow
      apply Nat.or_lt_two_pow
      · rw [Nat.shiftLeft_eq]
        have hs : (n >>> 21) % 256 < 256 := Nat.mod_lt _ (by norm_num)
        omega
      · rw [Nat.shiftLeft_eq]
        omega
      · rw [Nat.shiftLeft_eq]
        omega
      · rw [Nat.shiftLeft_eq]
        have hs : (n >>> 8) % 256 < 256 := Nat.mod_lt _ (by norm_num)
        omega
      · omega
    rw [Nat.testBit_lt_two_pow (Nat.lt_of_lt_of_le hL (Nat.pow_le_pow_right (by norm_num) hi)),
        Nat.testBit_lt_two_pow (Nat.lt_of_lt_of_le h (Nat.pow_le_pow_right (by norm_num) hi))]

/-- C3: for every standard identifier 0..=2047 and every extended
identifier 0..=2^29-1, decoding the packed 4-byte header
(`IdHeader::id` of `IdHeader::from(id)`) yields the identifier back,
and for every extended identifier the extension flag bit (bit 3 of the
second header byte) is set in the packed header. -/
theorem spec_c3_idheader_roundtrip :
    (∀ n, n < 2048 → (IdHeader.ofId (Id.standard n)).id = Id.standard n)
    ∧ (∀ n, n < 2 ^ 29 →
        (IdHeader.ofId (Id.extended n)).id = Id.extended n
        ∧ (IdHeader.ofId (Id.extended n)).exide = true) :=
  ⟨fun n h => ofStandard_roundtrip n h,
   fun n h => ⟨ofExtended_roundtrip n h, ofExtended_exide n⟩⟩

/-- Witness for C3 at the standard identifier 1234 and the extended
identifier 0x1ABCDEF3. -/
theorem spec_c3_idheader_roundtrip_witness :
    (IdHeader.ofId (Id.standard 1234)).id = Id.standard 1234
    ∧ (IdHeader.ofId (Id.extended 0x1ABCDEF3)).id = Id.extended 0x1ABCDEF3
    ∧ (IdHeader.ofId (Id.extended 0x1ABCDEF3)).exide = true :=
  ⟨spec_c3_idheader_roundtrip.1 1234 (by norm_num),
   (spec_c3_idheader_roundtrip.2 0x1ABCDEF3 (by norm_num)).1,
   (spec_c3_idheader_roundtrip.2 0x1ABCDEF3 (by norm_num)).2⟩

/-- C1 (counter-evidence, code bug): the claim says byte3 of the
serialized 4-byte identifier field equals the low 8 bits of the
extension (and 0 for a standard identifier), but `IdHeader::into_bytes`
returns `[sidh, sidl, eid8, sidh]` — its fourth byte is `sidh`.  For
the extended identifier 1 the low extension byte (`eid0`) is 1 yet the
serialized byte3 is 0; for the standard identifier 8 the serialized
byte3 is 1 yet the claim requires 0. -/
theorem spec_c1_into_bytes_byte3_bug :
    (IdHeader.ofId (Id.extended 1)).into_bytes = [0, 8, 0, 0]
    ∧ (IdHeader.ofId (Id.extended 1)).eid0 = 1
    ∧ (IdHeader.ofId (Id.standard 8)).into_bytes = [1, 0, 0, 1]
    ∧ (IdHeader.ofId (Id.standard 8)).eid0 = 0 :=
  ⟨rfl, rfl, rfl, rfl⟩

/-- C2: every frame whose identifier header has the extension flag bit
set hits the `todo!()` panic (modelled as `none`) in the `id()`
accessor, and the branch is reachable from the public
`Frame::from_bytes`: any 13-byte block whose second byte has bit 3 set
decodes to such a frame. -/
theorem spec_c2_id_panics_on_extended :
    (∀ f : CanFrame, f.exide = true → f.id = none)
    ∧ (∀ b : Bytes13, 0 < b.b1 &&& 8 → (CanFrame.from_bytes b).id = none) := by
  constructor
  · intro f hf
    simp only [CanFrame.exide, decide_eq_true_eq] at hf
    simp [CanFrame.id, hf]
  · intro b hb
    have hs : (CanFrame.from_bytes b).sidl = b.b1 := by
      rw [CanFrame.from_bytes]
      split <;> rfl
    simp [CanFrame.id, hs, hb]

/-- Witness for C2: the 13-byte block with second byte 8 (only the
extension flag bit set) decodes to a frame whose `id()` panics. -/
theorem spec_c2_id_panics_on_extended_witness :
    0 < (Bytes13.mk 0 8 0 0 0 0 0 0 0 0 0 0 0).b1 &&& 8
    ∧ (CanFrame.from_bytes (Bytes13.mk 0 8 0 0 0 0 0 0 0 0 0 0 0)).id = none :=
  ⟨by decide,
   spec_c2_id_panics_on_extended.2 (Bytes13.mk 0 8 0 0 0 0 0 0 0 0 0 0 0) (by decide)⟩

/-- C4: encoding a frame with data length code 0..=8 to its 13-byte
layout and decoding it back yields the frame unchanged (all fields:
identifier header bytes, DLC byte — hence remote-request flag — and
data). -/
theorem spec_c4_frame_roundtrip (f : CanFrame) (h : f.dlcVal ≤ 8) :
    CanFrame.from_bytes f.as_bytes = f := by
  cases f
  simp only [CanFrame.dlcVal, DLC.get_dlc] at h
  simp only [CanFrame.from_bytes, CanFrame.as_bytes, DLC.get_dlc]
  rw [if_neg (by omega)]

/-- Witness for C4 at the frame of the crate's transmit test
(standard id 1, data `[1, 2, 3]`). -/
theorem spec_c4_frame_roundtrip_witness :
    (CanFrame.mk 0 32 0 0 3 1 2 3 0 0 0 0 0).dlcVal ≤ 8
    ∧ CanFrame.from_bytes (CanFrame.mk 0 32 0 0 3 1 2 3 0 0 0 0 0).as_bytes
      = CanFrame.mk 0 32 0 0 3 1 2 3 0 0 0 0 0 :=
  ⟨by decide, spec_c4_frame_roundtrip (CanFrame.mk 0 32 0 0 3 1 2 3 0 0 0 0 0) (by decide)⟩

/-- C5: `Frame::new` fails (returns the `Err(())` length violation,
producing no frame) exactly when the data slice is longer than 8
bytes, and `Frame::new_remote` fails exactly when the requested length
exceeds 8. -/
theorem spec_c5_new_length_check (i : Id) (data : List Nat) (dlc : Nat) :
    (CanFrame.new i data = .error () ↔ 8 < data.length)
    ∧ (CanFrame.new_remote i dlc = .error () ↔ 8 < dlc) := by
  constructor
  · rw [CanFrame.new]
    split <;> simp_all
  · rw [CanFrame.new_remote]
    split <;> simp_all

/-- Witness for C5: length 9 fails, length 8 succeeds, remote length 9
fails. -/
theorem spec_c5_new_length_check_witness :
    (CanFrame.new (Id.standard 3) [1, 2, 3, 4, 5, 6, 7, 8, 9] = .error ()
      ↔ 8 < (9 : Nat))
    ∧ (CanFrame.new_remote (Id.standard 3) 9 = .error () ↔ 8 < (9 : Nat))
    ∧ ¬CanFrame.new (Id.standard 3) [1, 2, 3, 4, 5, 6, 7, 8] = .error () := by
  refine ⟨(spec_c5_new_length_check (Id.standard 3) [1, 2, 3, 4, 5, 6, 7, 8, 9] 9).1,
          (spec_c5_new_length_check (Id.standard 3) [1, 2, 3, 4, 5, 6, 7, 8] 9).2, ?_⟩
  intro h
  exact absurd ((spec_c5_new_length_check (Id.standard 3) [1, 2, 3, 4, 5, 6, 7, 8] 9).1.mp h)
    (by decide)

/-- C6: decoding a 13-byte block never fails (`from_bytes` is a total
function); when the control byte's low nibble exceeds 8 the decoded
frame's data length code is exactly 8 and its `data()` accessor
returns the full 8 data bytes of the block; when the nibble is 0..=8
the length is taken unchanged. -/
theorem spec_c6_decode_clamps_dlc (b : Bytes13) :
    (8 < b.b4 % 16 →
      (CanFrame.from_bytes b).dlcVal = 8
      ∧ (CanFrame.from_bytes b).data
        = [b.b5, b.b6, b.b7, b.b8, b.b9, b.b10, b.b11, b.b12])
    ∧ (b.b4 % 16 ≤ 8 → (CanFrame.from_bytes b).dlcVal = b.b4 % 16) := by
  constructor
  · intro hb
    have h8 : (CanFrame.from_bytes b).dlcVal = 8 := by
      simp only [CanFrame.from_bytes, DLC.get_dlc]
      rw [if_pos (by omega)]
      simp only [CanFrame.dlcVal, DLC.get_dlc, DLC.with_dlc]
      omega
    refine ⟨h8, ?_⟩
    have hdata : (CanFrame.from_bytes b).d0 = b.b5 ∧ (CanFrame.from_bytes b).d1 = b.b6
        ∧ (CanFrame.from_bytes b).d2 = b.b7 ∧ (CanFrame.from_bytes b).d3 = b.b8
        ∧ (CanFrame.from_bytes b).d4 = b.b9 ∧ (CanFrame.from_bytes b).d5 = b.b10
        ∧ (CanFrame.from_bytes b).d6 = b.b11 ∧ (CanFrame.from_bytes b).d7 = b.b12 := by
      rw [CanFrame.from_bytes]
      split <;> exact ⟨rfl, rfl, rfl, rfl, rfl, rfl, rfl, rfl⟩
    rw [CanFrame.data, h8, hdata.1, hdata.2.1, hdata.2.2.1, hdata.2.2.2.1,
      hdata.2.2.2.2.1, hdata.2.2.2.2.2.1, hdata.2.2.2.2.2.2.1, hdata.2.2.2.2.2.2.2]
    rfl
  · intro hb
    simp only [CanFrame.from_bytes, DLC.get_dlc]
    rw [if_neg (by omega)]
    simp [CanFrame.dlcVal, DLC.get_dlc]

/-- Witness for C6 at a block with length nibble 15 and one with
length nibble 5. -/
theorem spec_c6_decode_clamps_dlc_witness :
    (8 < (Bytes13.mk 0 0 0 0 15 1 2 3 4 5 6 7 8).b4 % 16
      ∧ (CanFrame.from_bytes (Bytes13.mk 0 0 0 0 15 1 2 3 4 5 6 7 8)).dlcVal = 8
      ∧ (CanFrame.from_bytes (Bytes13.mk 0 0 0 0 15 1 2 3 4 5 6 7 8)).data
        = [1, 2, 3, 4, 5, 6, 7, 8])
    ∧ ((Bytes13.mk 0 0 0 0 5 1 2 3 4 5 6 7 8).b4 % 16 ≤ 8
      ∧ (CanFrame.from_bytes (Bytes13.mk 0 0 0 0 5 1 2 3 4 5 6 7 8)).dlcVal = 5) := by
  refine ⟨⟨by decide, ?_, ?_⟩, by decide, ?_⟩
  · exact ((spec_c6_decode_clamps_dlc (Bytes13.mk 0 0 0 0 15 1 2 3 4 5 6 7 8)).1
      (by decide)).1
  · exact ((spec_c6_decode_clamps_dlc (Bytes13.mk 0 0 0 0 15 1 2 3 4 5 6 7 8)).1
      (by decide)).2
  · exact (spec_c6_decode_clamps_dlc (Bytes13.mk 0 0 0 0 5 1 2 3 4 5 6 7 8)).2 (by decide)

/-- Re-encoding the decoded fields of a byte gives the byte reduced
modulo the total width. -/
theorem byteOf_fieldsOf (ws : List Nat) (b : Nat) :
    byteOf ws (fieldsOf ws b) = b % 2 ^ ws.sum := by
  induction ws generalizing b with
  | nil => simp [fieldsOf, byteOf, Nat.mod_one]
  | cons w ws ih =>
    simp only [fieldsOf, byteOf, ih, List.sum_cons]
    rw [Nat.mod_mod_of_dvd _ (dvd_refl _), Nat.pow_add, Nat.mod_mul]

/-- Decoding is total: every byte decodes to valid field values. -/
theorem fieldsOf_valid (ws : List Nat) (b : Nat) : FieldsValid ws (fieldsOf ws b) := by
  induction ws generalizing b with
  | nil => trivial
  | cons w ws ih =>
    exact ⟨Nat.mod_lt _ (Nat.pos_pow_of_pos _ (by norm_num)), ih _⟩

/-- Decoding the encoding of valid field values gives them back. -/
theorem fieldsOf_byteOf (ws vs : List Nat) (h : FieldsValid ws vs) :
    fieldsOf ws (byteOf ws vs) = vs := by
  induction ws generalizing vs with
  | nil =>
    cases vs with
    | nil => rfl
    | cons v vs => exact absurd h (by simp [FieldsValid])
  | cons w ws ih =>
    cases vs with
    | nil => exact absurd h (by simp [FieldsValid])
    | cons v vs =>
      obtain ⟨hv, hrest⟩ := h
      simp only [byteOf, fieldsOf, Nat.mod_eq_of_lt hv]
      rw [Nat.add_mul_mod_self_left, Nat.mod_eq_of_lt hv,
        Nat.add_mul_div_left _ _ (Nat.pos_pow_of_pos _ (by norm_num)),
        Nat.div_eq_of_lt hv, Nat.zero_add, ih vs hrest]

/-- C10: for every register type of the register codec, decoding a byte
and re-encoding yields the byte back for all 256 byte values, decoding
is total (every byte decodes to a valid register value, skipped bits
carried through as fields), and encoding a valid register value then
decoding yields an equal value. -/
theorem spec_c10_register_codec :
    ∀ ws ∈ registerLayouts,
      (∀ b, b < 256 → byteOf ws (fieldsOf ws b) = b)
      ∧ (∀ b, FieldsValid ws (fieldsOf ws b))
      ∧ (∀ vs, FieldsValid ws vs → fieldsOf ws (byteOf ws vs) = vs) := by
  intro ws hws
  have hsum : ws.sum = 8 := by
    fin_cases hws <;> rfl
  refine ⟨fun b hb => ?_, fun b => fieldsOf_valid ws b, fun vs h => fieldsOf_byteOf ws vs h⟩
  rw [byteOf_fieldsOf, hsum]
  exact Nat.mod_eq_of_lt (show b < 2 ^ 8 by omega)

/-- Witness for C10 at the `DLC` register, byte 0x4F (dlc nibble 15,
rtr set) and field values `[15, 0, 1, 0]`. -/
theorem spec_c10_register_codec_witness :
    Widths.DLC ∈ registerLayouts
    ∧ byteOf Widths.DLC (fieldsOf Widths.DLC 0x4F) = 0x4F
    ∧ FieldsValid Widths.DLC (fieldsOf Widths.DLC 0x4F)
    ∧ fieldsOf Widths.DLC (byteOf Widths.DLC [15, 0, 1, 0]) = [15, 0, 1, 0] := by
  have hmem : Widths.DLC ∈ registerLayouts := by
    simp [registerLayouts]
  have h := spec_c10_register_codec Widths.DLC hmem
  refine ⟨hmem, h.1 0x4F (by norm_num), h.2.1 0x4F, h.2.2 [15, 0, 1, 0] ?_⟩
  simp [FieldsValid, Widths.DLC]

/-- Do-notation bind of `M` is `M.bind`. -/
theorem M.bind_def (x : M α) (f : α → M β) : x >>= f = M.bind x f := rfl

/-- Do-notation pure of `M` is `M.pure`. -/
theorem M.pure_def (a : α) : (Pure.pure a : M α) = M.pure a := rfl

/-- Left identity of `M.bind`. -/
theorem M.pure_bind (a : α) (f : α → M β) : M.bind (M.pure a) f = f a := by
  funext env n
  simp only [M.bind, M.pure]
  rcases f a env n with ⟨r, n2, l2⟩
  simp

/-- Associativity of `M.bind`. -/
theorem M.bind_assoc (x : M α) (f : α → M β) (g : β → M γ) :
    M.bind (M.bind x f) g = M.bind x fun a => M.bind (f a) g := by
  funext env n
  simp only [M.bind]
  rcases hx : x env n with ⟨r, n1, l1⟩
  cases r with
  | error e => rfl
  | ok a =>
    rcases hf : f a env n1 with ⟨r2, n2, l2⟩
    cases r2 with
    | error e => simp [hf]
    | ok b =>
      rcases hg : g b env n2 with ⟨r3, n3, l3⟩
      simp [hf, hg]

/-- C7: for every status snapshot read at the start of transmit (and a
bus with no errors), `Can::transmit` selects the first transmit buffer
in priority order 0, 1, 2 whose txreq flag is clear, loads the frame
into it and then issues request-to-send for it; if all three txreq
flags are set it returns `WouldBlock` after only the status read,
writing no buffer and issuing no request-to-send. -/
theorem spec_c7_transmit_selection (resp : Nat → List Nat) (frame : CanFrame) :
    (ReadStatusResponse.txreq0 ((resp 0).headD 0) = false →
      MCP25xx.transmit frame ⟨fun _ => false, resp⟩ 0
        = (.ok none, 3, [statusTxn, loadTxTxn 0 frame, rtsTxn 0]))
    ∧ (ReadStatusResponse.txreq0 ((resp 0).headD 0) = true →
      ReadStatusResponse.txreq1 ((resp 0).headD 0) = false →
      MCP25xx.transmit frame ⟨fun _ => false, resp⟩ 0
        = (.ok none, 3, [statusTxn, loadTxTxn 1 frame, rtsTxn 1]))
    ∧ (ReadStatusResponse.txreq0 ((resp 0).headD 0) = true →
      ReadStatusResponse.txreq1 ((resp 0).headD 0) = true →
      ReadStatusResponse.txreq2 ((resp 0).headD 0) = false →
      MCP25xx.transmit frame ⟨fun _ => false, resp⟩ 0
        = (.ok none, 3, [statusTxn, loadTxTxn 2 frame, rtsTxn 2]))
    ∧ (ReadStatusResponse.txreq0 ((resp 0).headD 0) = true →
      ReadStatusResponse.txreq1 ((resp 0).headD 0) = true →
      ReadStatusResponse.txreq2 ((resp 0).headD 0) = true →
      MCP25xx.transmit frame ⟨fun _ => false, resp⟩ 0
        = (.error .wouldBlock, 1, [statusTxn])) := by
  refine ⟨fun h0 => ?_, fun h0 h1 => ?_, fun h0 h1 h2 => ?_, fun h0 h1 h2 => ?_⟩ <;>
    simp [MCP25xx.transmit, MCP25xx.read_status, MCP25xx.selectTxBuffer,
      MCP25xx.load_tx_buffer, MCP25xx.write_registers, MCP25xx.request_to_send,
      M.bind_def, M.pure_def, M.bind, M.pure, M.txn, M.fail,
      statusTxn, loadTxTxn, rtsTxn, h0, -List.headD_eq_head?_getD, *]

/-- Witness for C7: with status byte 0x14 (txreq0 and txreq1 set,
txreq2 clear) buffer 2 is selected; with status byte 0x54 (all three
set) transmit reports `WouldBlock` after the status read alone. -/
theorem spec_c7_transmit_selection_witness :
    (MCP25xx.transmit (CanFrame.mk 0 32 0 0 3 1 2 3 0 0 0 0 0)
        ⟨fun _ => false, fun _ => [0x14]⟩ 0
      = (.ok none, 3, [statusTxn, loadTxTxn 2 (CanFrame.mk 0 32 0 0 3 1 2 3 0 0 0 0 0),
          rtsTxn 2]))
    ∧ (MCP25xx.transmit (CanFrame.mk 0 32 0 0 3 1 2 3 0 0 0 0 0)
        ⟨fun _ => false, fun _ => [0x54]⟩ 0
      = (.error .wouldBlock, 1, [statusTxn])) :=
  ⟨(spec_c7_transmit_selection (fun _ => [0x14]) (CanFrame.mk 0 32 0 0 3 1 2 3 0 0 0 0 0)).2.2.1
      (by decide) (by decide) (by decide),
   (spec_c7_transmit_selection (fun _ => [0x54]) (CanFrame.mk 0 32 0 0 3 1 2 3 0 0 0 0 0)).2.2.2
      (by decide) (by decide) (by decide)⟩

/-- C8: for every status snapshot read at the start of receive (and a
bus with no errors), if receive buffer 0's pending flag is set then
buffer 0 is read and returned — even when buffer 1's flag is also
set — else if buffer 1's pending flag is set then buffer 1 is read and
returned, else `WouldBlock` is reported after only the status read,
with no buffer read. -/
theorem spec_c8_receive_selection (resp : Nat → List Nat) :
    (ReadStatusResponse.rx0if ((resp 0).headD 0) = true →
      MCP25xx.receive ⟨fun _ => false, resp⟩ 0
        = (.ok (CanFrame.from_bytes (toBytes13 (resp 1))), 3,
            [statusTxn, readRxTxn 0, clearRxFlagTxn 0]))
    ∧ (ReadStatusResponse.rx0if ((resp 0).headD 0) = false →
      ReadStatusResponse.rx1if ((resp 0).headD 0) = true →
      MCP25xx.receive ⟨fun _ => false, resp⟩ 0
        = (.ok (CanFrame.from_bytes (toBytes13 (resp 1))), 3,
            [statusTxn, readRxTxn 1, clearRxFlagTxn 1]))
    ∧ (ReadStatusResponse.rx0if ((resp 0).headD 0) = false →
      ReadStatusResponse.rx1if ((resp 0).headD 0) = false →
      MCP25xx.receive ⟨fun _ => false, resp⟩ 0
        = (.error .wouldBlock, 1, [statusTxn])) := by
  refine ⟨fun h0 => ?_, fun h0 h1 => ?_, fun h0 h1 => ?_⟩ <;>
    simp [MCP25xx.receive, MCP25xx.read_status, MCP25xx.read_rx_buffer,
      MCP25xx.read_rx, MCP25xx.modify_register,
      M.bind_def, M.pure_def, M.bind, M.pure, M.txn, M.fail,
      statusTxn, readRxTxn, clearRxFlagTxn, h0, -List.headD_eq_head?_getD, *]

/-- Witness for C8: with status byte 3 (both receive pending flags set)
buffer 0 is read, not buffer 1; with status byte 0 receive reports
`WouldBlock` after the status read alone. -/
theorem spec_c8_receive_selection_witness :
    (MCP25xx.receive ⟨fun _ => false, fun _ => [3]⟩ 0
      = (.ok (CanFrame.from_bytes (toBytes13 [3])), 3,
          [statusTxn, readRxTxn 0, clearRxFlagTxn 0]))
    ∧ (MCP25xx.receive ⟨fun _ => false, fun _ => [0]⟩ 0
      = (.error .wouldBlock, 1, [statusTxn])) :=
  ⟨(spec_c8_receive_selection (fun _ => [3])).1 (by decide),
   (spec_c8_receive_selection (fun _ => [0])).2.2 (by decide) (by decide)⟩

/-- Splitting a straight-line transaction sequence. -/
theorem txnSeq_append (L1 L2 : List Txn) :
    txnSeq (L1 ++ L2) = M.bind (txnSeq L1) fun _ => txnSeq L2 := by
  induction L1 with
  | nil => simp [txnSeq, M.pure_def, M.pure_bind]
  | cons t ts ih => simp [txnSeq, M.bind_def, ih, M.bind_assoc]

/-- A straight-line sequence on an error-free bus issues exactly its
transactions in order. -/
theorem txnSeq_run_ok (L : List Txn) (env : SpiEnv) :
    ∀ n, (∀ i, i < L.length → env.fails (n + i) = false) →
    txnSeq L env n = (.ok (), n + L.length, L) := by
  induction L with
  | nil => intro n _; rfl
  | cons t ts ih =>
    intro n h
    have h0 : env.fails n = false := by simpa using h 0 (by simp)
    simp only [txnSeq, M.bind_def, M.bind, M.txn, h0, Bool.false_eq_true, if_false]
    rw [ih (n + 1) fun i hi => by
      have := h (i + 1) (by simpa using Nat.succ_lt_succ hi)
      simpa [Nat.add_assoc, Nat.add_comm 1 i] using this]
    simp
    omega

/-- A straight-line sequence stops at the first failing transaction:
the transactions before it are issued, nothing after it. -/
theorem txnSeq_run_fail (L : List Txn) (env : SpiEnv) :
    ∀ n k, k < L.length → env.fails (n + k) = true →
    (∀ i, i < k → env.fails (n + i) = false) →
    txnSeq L env n = (.error .bus, n + k, L.take k) := by
  induction L with
  | nil =>
    intro n k hk
    simp at hk
  | cons t ts ih =>
    intro n k hk hfail hok
    cases k with
    | zero =>
      have h0 : env.fails n = true := by simpa using hfail
      simp [txnSeq, M.bind_def, M.bind, M.txn, h0]
    | succ k =>
      have h0 : env.fails n = false := by simpa using hok 0 (Nat.succ_pos k)
      simp only [txnSeq, M.bind_def, M.bind, M.txn, h0, Bool.false_eq_true, if_false]
      rw [ih (n + 1) k (by simpa using hk)
        (by
          have := hfail
          rwa [show n + (k + 1) = n + 1 + k from by omega] at this)
        (fun i hi => by
          have := hok (i + 1) (by omega)
          rwa [show n + (i + 1) = n + 1 + i from by omega] at this)]
      simp
      omega

/-- The filter loop of `apply_config` issues one filter-write
transaction per pair, in list order. -/
theorem set_filters_eq_txnSeq (fs : List (Nat × IdHeader)) :
    MCP25xx.set_filters fs = txnSeq (fs.map filterTxn) := by
  induction fs with
  | nil => rfl
  | cons f fs ih =>
    obtain ⟨fa, fid⟩ := f
    simp only [MCP25xx.set_filters, MCP25xx.set_filter, MCP25xx.write_registers,
      List.map_cons, txnSeq, filterTxn, M.bind_def, M.pure_def, ih,
      M.bind_assoc, M.pure_bind]

/-- `apply_config` is the straight-line sequence `applyConfigTxns`. -/
theorem apply_config_eq_txnSeq (c : Config) :
    MCP25xx.apply_config c = txnSeq (applyConfigTxns c) := by
  simp only [MCP25xx.apply_config, MCP25xx.reset, MCP25xx.set_bitrate,
    MCP25xx.write_registers, MCP25xx.write_register, set_filters_eq_txnSeq,
    applyConfigTxns, txnSeq_append, List.cons_append, List.nil_append, txnSeq,
    M.bind_def, M.pure_def, M.bind_assoc, M.pure_bind]
  simp [txnSeq_append, txnSeq, M.bind_def, M.pure_def, M.bind_assoc, M.pure_bind]

/-- C9: `apply_config` issues exactly, in order: reset, the CNF
bit-timing write, the RXB0CTRL write, the RXB1CTRL write, one filter
write per (filter, identifier) pair in caller-supplied order, and the
CANCTRL write — and nothing else — when the bus raises no error; and
it stops at the first bus error, issuing none of the later
transactions. -/
theorem spec_c9_apply_config_sequence (c : Config) (env : SpiEnv) :
    ((∀ i, i < (applyConfigTxns c).length → env.fails i = false) →
      MCP25xx.apply_config c env 0
        = (.ok (), (applyConfigTxns c).length, applyConfigTxns c))
    ∧ (∀ k, k < (applyConfigTxns c).length → env.fails k = true →
      (∀ i, i < k → env.fails i = false) →
      MCP25xx.apply_config c env 0
        = (.error .bus, k, (applyConfigTxns c).take k)) := by
  constructor
  · intro h
    rw [apply_config_eq_txnSeq]
    have hrun := txnSeq_run_ok (applyConfigTxns c) env 0
      (fun i hi => by simpa using h i hi)
    simpa using hrun
  · intro k hk hf hok
    rw [apply_config_eq_txnSeq]
    have hrun := txnSeq_run_fail (applyConfigTxns c) env 0 k hk (by simpa using hf)
      (fun i hi => by simpa using hok i hi)
    simpa using hrun

/-- Witness for C9 at a one-filter configuration: an error-free bus
yields the full 6-transaction sequence; a bus failing at transaction 2
yields exactly the first two transactions and the bus error. -/
theorem spec_c9_apply_config_sequence_witness :
    (MCP25xx.apply_config (Config.mk 7 1 2 3 96 0 [(0, IdHeader.ofId (Id.standard 3))])
        ⟨fun _ => false, fun _ => []⟩ 0
      = (.ok (),
          (applyConfigTxns (Config.mk 7 1 2 3 96 0 [(0, IdHeader.ofId (Id.standard 3))])).length,
          applyConfigTxns (Config.mk 7 1 2 3 96 0 [(0, IdHeader.ofId (Id.standard 3))])))
    ∧ (MCP25xx.apply_config (Config.mk 7 1 2 3 96 0 [(0, IdHeader.ofId (Id.standard 3))])
        ⟨fun k => decide (k = 2), fun _ => []⟩ 0
      = (.error .bus, 2,
          (applyConfigTxns (Config.mk 7 1 2 3 96 0 [(0, IdHeader.ofId (Id.standard 3))])).take 2)) :=
  ⟨(spec_c9_apply_config_sequence (Config.mk 7 1 2 3 96 0 [(0, IdHeader.ofId (Id.standard 3))])
      ⟨fun _ => false, fun _ => []⟩).1 (fun i _ => rfl),
   (spec_c9_apply_config_sequence (Config.mk 7 1 2 3 96 0 [(0, IdHeader.ofId (Id.standard 3))])
      ⟨fun k => decide (k = 2), fun _ => []⟩).2 2 (by decide) (by decide)
      (fun i hi => by interval_cases i <;> decide)⟩

end Mcp25xx
